import Mathlib

/-!
Verification of the container-tooling extension's task and debug
configuration resolution logic.

The development shallowly embeds the TypeScript sources: configuration
records become structures with `Option` fields (`none` models an absent
or `undefined` field), JavaScript truthiness on strings is modelled
explicitly (the empty string is falsy), in-place mutation of option
records becomes functional update, asynchronous file-system and host
probes become explicit environment records, and code that can throw
returns `Except String`.
-/

/-- Checks whether `needle` occurs as a contiguous sublist of `haystack`.
This models JavaScript regular-expression search for a plain token. -/
def containsSub (needle : List Char) : List Char → Bool
  | [] => needle.isEmpty
  | c :: t => needle.isPrefixOf (c :: t) || containsSub needle t

/-- Checks whether the string `needle` occurs inside `haystack` (case-sensitive). -/
def strContainsSub (haystack needle : String) : Bool :=
  containsSub needle.data haystack.data

theorem isPrefixOf_eq_true_iff : ∀ (n h : List Char), n.isPrefixOf h = true ↔ ∃ r, h = n ++ r
  | [], h => by simp [List.isPrefixOf]
  | _ :: _, [] => by simp [List.isPrefixOf]
  | a :: n, b :: h => by
    simp only [List.isPrefixOf, Bool.and_eq_true, beq_iff_eq, isPrefixOf_eq_true_iff n h,
      List.cons_append]
    constructor
    · rintro ⟨rfl, r, rfl⟩
      exact ⟨r, rfl⟩
    · rintro ⟨r, hr⟩
      obtain ⟨rfl, rfl⟩ := List.cons.injEq .. ▸ hr
      exact ⟨rfl, r, rfl⟩

theorem containsSub_eq_true_iff : ∀ (n h : List Char),
    containsSub n h = true ↔ ∃ l r, h = l ++ n ++ r
  | n, [] => by
    simp [containsSub, List.isEmpty_iff, eq_comm (a := ([] : List Char)), List.append_eq_nil]
  | n, c :: t => by
    simp only [containsSub, Bool.or_eq_true, isPrefixOf_eq_true_iff, containsSub_eq_true_iff n t]
    constructor
    · rintro (⟨r, hr⟩ | ⟨l, r, hr⟩)
      · exact ⟨[], r, by simp [hr]⟩
      · exact ⟨c :: l, r, by simp [hr]⟩
    · rintro ⟨l, r, hr⟩
      cases l with
      | nil => exact Or.inl ⟨r, by simpa using hr⟩
      | cons x xs =>
        right
        obtain ⟨rfl, rfl⟩ := List.cons.injEq .. ▸ hr
        exact ⟨xs, r, rfl⟩

theorem strContainsSub_of_decomp (h l n r : String) (hd : h = l ++ n ++ r) :
    strContainsSub h n = true := by
  subst hd
  exact (containsSub_eq_true_iff n.data (l.data ++ n.data ++ r.data)).mpr ⟨l.data, r.data, rfl⟩

theorem strContainsSub_append_right (a b n : String) (hb : strContainsSub b n = true) :
    strContainsSub (a ++ b) n = true := by
  obtain ⟨l, r, hr⟩ := (containsSub_eq_true_iff n.data b.data).mp hb
  exact (containsSub_eq_true_iff n.data (a ++ b).data).mpr
    ⟨a.data ++ l, r, by simp [hr]⟩

/-- JavaScript truthiness of an optional string: `undefined` and the empty
string are falsy, every other string is truthy. -/
def jsTruthy : Option String → Bool
  | some s => !s.data.isEmpty
  | none => false

/-- The JavaScript expression `value || fallback` on an optional string:
the fallback is used when the value is `undefined` or the empty string. -/
def jsOrStr (value : Option String) (fallback : String) : String :=
  match value with
  | some s => if s.data.isEmpty then fallback else s
  | none => fallback

/-- The JavaScript statement `obj[key] = obj[key] || v` on a string-keyed
object modelled as an ordered association list: when the key is absent the
pair is appended, when it is present with a falsy (empty) value it is
overwritten in place, otherwise the object is unchanged. -/
def objSetDefault (m : List (String × String)) (key v : String) : List (String × String) :=
  match m.lookup key with
  | some old => if old.data.isEmpty then m.map (fun p => if p.1 == key then (key, v) else p) else m
  | none => m ++ [(key, v)]

/-- Splits a character list at every occurrence of `sep`; the separators are
dropped and empty segments are kept, as `String.prototype.split` does. -/
def splitOnChar (sep : Char) : List Char → List (List Char)
  | [] => [[]]
  | c :: t =>
    let rest := splitOnChar sep t
    if c == sep then [] :: rest
    else
      match rest with
      | [] => [[c]]
      | h :: t2 => (c :: h) :: t2

/-- Joins path segments with the POSIX separator. -/
def joinWithSlash : List (List Char) → List Char
  | [] => []
  | [x] => x
  | x :: xs => x ++ '/' :: joinWithSlash xs

/-- Fuel-indexed worker for `replaceSub`; the fuel starts at the length of the
subject so it never runs out. -/
def replaceSubGo (pattern replacement : List Char) : Nat → List Char → List Char
  | 0, s => s
  | _ + 1, [] => []
  | fuel + 1, c :: t =>
    if !pattern.isEmpty && pattern.isPrefixOf (c :: t) then
      replacement ++ replaceSubGo pattern replacement fuel ((c :: t).drop pattern.length)
    else
      c :: replaceSubGo pattern replacement fuel t

/-- Replaces every non-overlapping occurrence of `pattern` (left to right)
with `replacement`, as a global JavaScript string replace does. -/
def replaceSub (pattern replacement s : List Char) : List Char :=
  replaceSubGo pattern replacement s.length s

/-- Model of the resolveFilePath utility (and of
NetCoreTaskHelper.resolveWorkspaceFolderPath): replaces occurrences of the
workspace-folder template variable with the workspace folder path. The
source regex is case-insensitive; the model replaces the canonical casing
used throughout the scaffolded definitions. -/
def resolveFilePath (filePath folderPath : String) : String :=
  ⟨replaceSub "$\x7bworkspaceFolder\x7d".data folderPath.data filePath.data⟩

/-- Modelled from the spec: the unresolveFilePath utility (utils/resolveFilePath.ts,
not under src) maps an absolute path back to a workspace-relative one by
substituting the workspace folder path with the template variable. -/
def unresolveFilePath (filePath folderPath : String) : String :=
  ⟨replaceSub folderPath.data "$\x7bworkspaceFolder\x7d".data filePath.data⟩

/-- Index of the last occurrence of `ch` in `cs`, when there is one. -/
def lastIndexOfChar (ch : Char) (cs : List Char) : Option Nat :=
  (cs.reverse.findIdx? (fun c => c == ch)).map (fun k => cs.length - 1 - k)

/-- Model of Node's path.basename for POSIX paths without trailing separators. -/
def pathBasename (p : String) : String :=
  ⟨(splitOnChar '/' p.data).getLastD p.data⟩

/-- Model of Node's path.dirname for POSIX paths without trailing separators. -/
def pathDirname (p : String) : String :=
  match splitOnChar '/' p.data with
  | [] => "."
  | [_] => "."
  | parts =>
    let front := parts.dropLast
    if front.all List.isEmpty then "/" else ⟨joinWithSlash front⟩

/-- Model of Node's binary path.join for already-normalized POSIX segments. -/
def pathJoin (a b : String) : String :=
  ⟨a.data ++ '/' :: b.data⟩

/-- Model of Node's path.extname on a bare file name: the suffix from the last
dot, or empty when there is no dot or the dot starts the name. -/
def pathExtname (file : String) : String :=
  match lastIndexOfChar '.' file.data with
  | some i => if i = 0 then "" else ⟨file.data.drop i⟩
  | none => ""

/-- Model of Node's path.parse(...).name: the base name without its extension. -/
def pathParseName (p : String) : String :=
  let base := pathBasename p
  match lastIndexOfChar '.' base.data with
  | some i => if i = 0 then base else ⟨base.data.take i⟩
  | none => base

/-- Model of Node's path.normalize for POSIX paths: resolves `.` and `..`
segments and duplicate separators (trailing-separator differences are not
modelled). -/
def pathNormalize (p : String) : String :=
  let isAbs : Bool := match p.data with | '/' :: _ => true | _ => false
  let comps := (splitOnChar '/' p.data).filter (fun c => !c.isEmpty && !(c == ['.']))
  let comps := comps.foldl
    (fun acc c =>
      if c == ['.', '.'] then
        match acc.getLast? with
        | some l => if l == ['.', '.'] then acc ++ [c] else acc.dropLast
        | none => if isAbs then acc else acc ++ [c]
      else acc ++ [c])
    ([] : List (List Char))
  let body := joinWithSlash comps
  if isAbs then ⟨'/' :: body⟩ else if body.isEmpty then "." else ⟨body⟩

/-- Container target operating system (utils/platform.ts PlatformOS). -/
inductive PlatformOS where
  | Linux
  | Windows
deriving DecidableEq

/-- Host platform as reported by Node's os.platform(). -/
inductive HostPlatform where
  | win32
  | darwin
  | linux
deriving DecidableEq

/-- Volume mapping record (DockerContainerVolume). -/
structure DockerContainerVolume where
  localPath : String
  containerPath : String
  permissions : String
deriving DecidableEq

/-- NetCoreTaskHelper.addVolumeWithoutConflicts: when some volume in the list
already maps the same container path the list is returned unchanged with
`false`; otherwise the volume is appended and `true` is returned. The
source mutates the array in place; the model returns the updated list. -/
def addVolumeWithoutConflicts (volumes : List DockerContainerVolume)
    (volume : DockerContainerVolume) : List DockerContainerVolume × Bool :=
  if volumes.any (fun v => v.containerPath == volume.containerPath) then (volumes, false)
  else (volumes ++ [volume], true)

/-- Port mapping record (DockerContainerPort). -/
structure DockerContainerPort where
  hostPort : Nat
  containerPort : Nat
deriving DecidableEq

/-- Modelled from the spec: addPortWithoutConflicts lives in tasks/TaskHelper.ts,
which is not under src (only its caller PythonTaskHelper.inferPorts is);
the spec says port lists are ordered sequences deduplicated by
container-side port with first-write-wins semantics, mirroring the volume
case. -/
def addPortWithoutConflicts (ports : List DockerContainerPort)
    (port : DockerContainerPort) : List DockerContainerPort × Bool :=
  if ports.any (fun p => p.containerPort == port.containerPort) then (ports, false)
  else (ports ++ [port], true)

/-- PythonTaskHelper.inferPorts: user-defined ports are merged first, then the
debugger port 5678:5678 is added without conflicts. -/
def inferPorts (runOptionsPorts : Option (List DockerContainerPort)) : List DockerContainerPort :=
  let ports := (runOptionsPorts.getD []).foldl (fun ps p => (addPortWithoutConflicts ps p).1) []
  (addPortWithoutConflicts ports ⟨5678, 5678⟩).1

/-- Test of the case-insensitive regular expression used to detect an https
applicationUrl in a launch profile. -/
def httpsRegexTest (url : String) : Bool :=
  containsSub ("https://".data.map Char.toLower) (url.data.map Char.toLower)

/-- Launch profile entry of Properties/launchSettings.json. -/
structure LaunchProfile where
  commandName : Option String
  applicationUrl : Option String
deriving DecidableEq

/-- Parsed shape of Properties/launchSettings.json; profiles is a dictionary
in the source and is modelled by its value list in object order. -/
structure LaunchSettings where
  profiles : Option (List LaunchProfile)
deriving DecidableEq

/-- Outcome of locating and reading the launch-settings file: the file may be
absent, reading or parsing it may throw, or it parses to settings. -/
inductive LaunchSettingsRead where
  | missing
  | readError
  | parsed (settings : LaunchSettings)
deriving DecidableEq

namespace NetCoreTaskHelper

/-- Default image labels applied by the task helpers. -/
def defaultLabels : List (String × String) := [("com.microsoft.created-by", "visual-studio-code")]

/-- NuGet fallback folder constant for macOS hosts. -/
def MacNuGetPackageFallbackFolderPath : String := "/usr/local/share/dotnet/sdk/NuGetFallbackFolder"

/-- NuGet fallback folder constant for Linux hosts. -/
def LinuxNuGetPackageFallbackFolderPath : String := "/usr/share/dotnet/sdk/NuGetFallbackFolder"

/-- Try-block of NetCoreTaskHelper.inferSsl, before the catch handler: when
the launch-settings file exists, read and parse it (a read or parse failure
throws, modelled by the error case of the input), find the first profile
whose commandName is Project, and test its applicationUrl against the
case-insensitive https regex; every fall-through returns false. -/
def inferSslBody (launchSettings : LaunchSettingsRead) : Except Unit Bool :=
  match launchSettings with
  | .missing => .ok false
  | .readError => .error ()
  | .parsed s =>
    match s.profiles with
    | some profiles =>
      match profiles.find? (fun p => p.commandName == some "Project") with
      | some projectProfile =>
        match projectProfile.applicationUrl with
        | some url => .ok (!url.data.isEmpty && httpsRegexTest url)
        | none => .ok false
      | none => .ok false
    | none => .ok false

/-- NetCoreTaskHelper.inferSsl: the body runs inside try/catch, and the catch
handler swallows the error and falls through to `return false`. -/
def inferSsl (launchSettings : LaunchSettingsRead) : Bool :=
  match inferSslBody launchSettings with
  | .ok b => b
  | .error _ => false

/-- There is a launch profile with commandName Project whose applicationUrl
matches the https regex. -/
def hasHttpsProjectProfile : LaunchSettingsRead → Prop
  | .parsed s =>
    ∃ profiles, s.profiles = some profiles ∧
      ∃ p ∈ profiles, p.commandName = some "Project" ∧
        ∃ url, p.applicationUrl = some url ∧ httpsRegexTest url = true
  | _ => False

/-- NetCoreTaskHelper.inferUserSecrets applied to the contents of the project
file: UserSecretsRegex is the case-insensitive regular expression
/UserSecretsId/i, modelled as a case-insensitive substring test. -/
def inferUserSecrets (projectFileContents : String) : Bool :=
  containsSub ("UserSecretsId".data.map Char.toLower) (projectFileContents.data.map Char.toLower)

/-- The user-secrets decision of resolveDockerRunOptions, line for line:
`ssl === true ? true : await this.inferUserSecrets(...)`. -/
def resolveUserSecrets (ssl : Bool) (projectFileContents : String) : Bool :=
  if ssl = true then true else inferUserSecrets projectFileContents

/-- Helper options of the netCore task definitions. -/
structure NetCoreTaskOptions where
  appProject : Option String
  configureSsl : Option Bool
deriving DecidableEq

/-- Workspace and host state read by the asynchronous probes of
NetCoreTaskHelper during one resolution; the claims compare runs against an
unchanged workspace, so the probes are modelled as fields read identically
on every call. LocalAspNetCoreSslManager and NetCoreDebugHelper are not
under src, so the paths they produce are environment inputs. -/
structure NetCoreWorkspaceEnv where
  folderPath : String
  quickPickProjectPath : String
  cacheImage : Option String
  launchSettings : LaunchSettingsRead
  projectFileContents : String
  hostDebuggerPathBase : String
  homedir : String
  hostPlatform : HostPlatform
  programFiles : Option String
  hostUserSecretsFolder : String
  hostCertificateFolder : String
  containerUserSecretsFolderWindows : String
  containerUserSecretsFolderLinux : String
  containerCertificateFolderWindows : String
  containerCertificateFolderLinux : String
deriving DecidableEq

/-- LocalAspNetCoreSslManager.getContainerSecretsFolders, user-secrets half. -/
def containerUserSecretsFolder (wenv : NetCoreWorkspaceEnv) (os : PlatformOS) : String :=
  if os = PlatformOS.Windows then wenv.containerUserSecretsFolderWindows
  else wenv.containerUserSecretsFolderLinux

/-- LocalAspNetCoreSslManager.getContainerSecretsFolders, certificate half. -/
def containerCertificateFolder (wenv : NetCoreWorkspaceEnv) (os : PlatformOS) : String :=
  if os = PlatformOS.Windows then wenv.containerCertificateFolderWindows
  else wenv.containerCertificateFolderLinux

/-- NetCoreTaskHelper.inferAppProject: a truthy user-supplied appProject is
resolved against the workspace folder; otherwise the project file is found
by the quick-pick scan. -/
def inferAppProject (wenv : NetCoreWorkspaceEnv) (helperOptions : NetCoreTaskOptions) : String :=
  match helperOptions.appProject with
  | some p => if p.data.isEmpty then wenv.quickPickProjectPath else resolveFilePath p wenv.folderPath
  | none => wenv.quickPickProjectPath

/-- Removes the first whitespace character, modelling a JavaScript
replace with a non-global single-whitespace regular expression. -/
def removeFirstWhitespace : List Char → List Char
  | [] => []
  | c :: t => if c.isWhitespace then t else c :: removeFirstWhitespace t

/-- NetCoreTaskHelper.inferAppName:
path.parse(appProject).name.replace(regex for one whitespace, empty).toLowerCase(). -/
def inferAppName (appProject : String) : String :=
  let name := pathParseName appProject
  ⟨(removeFirstWhitespace name.data).map Char.toLower⟩

end NetCoreTaskHelper

namespace NetCoreTaskHelper

/-- Run options record of the docker-run task definitions (DockerRunOptions);
absent fields are `none`. -/
structure DockerRunOptions where
  command : Option String
  containerName : Option String
  entrypoint : Option String
  env : Option (List (String × String))
  image : Option String
  labels : Option (List (String × String))
  os : Option PlatformOS
  ports : Option (List DockerContainerPort)
  volumes : Option (List DockerContainerVolume)
deriving DecidableEq

/-- NetCoreTaskHelper.inferVolumes: user volumes are merged first, then the
app, src, debugger, NuGet and NuGet-fallback volumes, then (for user
secrets or SSL) the secrets and certificate volumes, each added without
conflicts. On a win32 host a missing ProgramFiles environment variable
throws. -/
def inferVolumes (wenv : NetCoreWorkspaceEnv) (appProject : String) (os : PlatformOS)
    (userVolumes : Option (List DockerContainerVolume)) (ssl userSecrets : Bool) :
    Except String (List DockerContainerVolume) :=
  let volumes := (userVolumes.getD []).foldl (fun vs v => (addVolumeWithoutConflicts vs v).1) []
  let appVolume : DockerContainerVolume :=
    ⟨pathDirname appProject, if os = PlatformOS.Windows then "C:\\app" else "/app", "rw"⟩
  let srcVolume : DockerContainerVolume :=
    ⟨wenv.folderPath, if os = PlatformOS.Windows then "C:\\src" else "/src", "rw"⟩
  let debuggerVolume : DockerContainerVolume :=
    ⟨wenv.hostDebuggerPathBase,
      if os = PlatformOS.Windows then "C:\\remote_debugger" else "/remote_debugger", "ro"⟩
  let nugetVolume : DockerContainerVolume :=
    ⟨pathJoin (pathJoin wenv.homedir ".nuget") "packages",
      if os = PlatformOS.Windows then "C:\\.nuget\\packages" else "/root/.nuget/packages", "ro"⟩
  if wenv.hostPlatform = HostPlatform.win32 ∧ wenv.programFiles = none then
    .error "The environment variable \x27ProgramFiles\x27 is not defined. This variable is used to locate the NuGet fallback folder."
  else
    let nugetFallbackVolume : DockerContainerVolume :=
      ⟨if wenv.hostPlatform = HostPlatform.win32 then
          pathJoin (pathJoin (pathJoin ((wenv.programFiles).getD "") "dotnet") "sdk") "NuGetFallbackFolder"
        else if wenv.hostPlatform = HostPlatform.darwin then MacNuGetPackageFallbackFolderPath
        else LinuxNuGetPackageFallbackFolderPath,
        if os = PlatformOS.Windows then "C:\\.nuget\\fallbackpackages" else "/root/.nuget/fallbackpackages",
        "ro"⟩
    let volumes := (addVolumeWithoutConflicts volumes appVolume).1
    let volumes := (addVolumeWithoutConflicts volumes srcVolume).1
    let volumes := (addVolumeWithoutConflicts volumes debuggerVolume).1
    let volumes := (addVolumeWithoutConflicts volumes nugetVolume).1
    let volumes := (addVolumeWithoutConflicts volumes nugetFallbackVolume).1
    let volumes :=
      if userSecrets || ssl then
        let userSecretsVolume : DockerContainerVolume :=
          ⟨wenv.hostUserSecretsFolder, containerUserSecretsFolder wenv os, "ro"⟩
        let volumes := (addVolumeWithoutConflicts volumes userSecretsVolume).1
        if ssl then
          let certVolume : DockerContainerVolume :=
            ⟨wenv.hostCertificateFolder, containerCertificateFolder wenv os, "ro"⟩
          (addVolumeWithoutConflicts volumes certVolume).1
        else volumes
      else volumes
    .ok volumes

/-- NetCoreTaskHelper.resolveDockerRunOptions (tasks/netcore/NetCoreTaskHelper.ts,
lines 59 to 100), field by field. The entrypoint and command lines keep the
source's JavaScript parse: the logical-or binds tighter than the
conditional, so the conditions read
(runOptions.entrypoint || runOptions.os === Windows) and
(runOptions.command || runOptions.os === Windows). -/
def resolveDockerRunOptions (wenv : NetCoreWorkspaceEnv)
    (helperOptionsIn : Option NetCoreTaskOptions) (runOptions : DockerRunOptions) :
    Except String DockerRunOptions :=
  let helperOptions := helperOptionsIn.getD ⟨none, none⟩
  let appProject := inferAppProject wenv helperOptions
  let cache := wenv.cacheImage
  let appName := inferAppName appProject
  let containerName := jsOrStr runOptions.containerName (appName ++ "-dev")
  let labels := runOptions.labels.getD defaultLabels
  let os := runOptions.os.getD PlatformOS.Linux
  let image := jsOrStr runOptions.image (jsOrStr cache (appName ++ ":dev"))
  let entrypoint := if jsTruthy runOptions.entrypoint || os = PlatformOS.Windows then "ping" else "tail"
  let command := if jsTruthy runOptions.command || os = PlatformOS.Windows then "-t localhost" else "-f /dev/null"
  let ssl := match helperOptions.configureSsl with
    | some b => b
    | none => inferSsl wenv.launchSettings
  let userSecrets := resolveUserSecrets ssl wenv.projectFileContents
  let envVars : Option (List (String × String)) :=
    if userSecrets then
      let e := objSetDefault (runOptions.env.getD []) "ASPNETCORE_ENVIRONMENT" "Development"
      let e := if ssl then objSetDefault e "ASPNETCORE_URLS" "http://+:80;https://+:443" else e
      some e
    else runOptions.env
  match inferVolumes wenv appProject os runOptions.volumes ssl userSecrets with
  | .error e => .error e
  | .ok volumes =>
    .ok { command := some command, containerName := some containerName,
          entrypoint := some entrypoint, env := envVars, image := some image,
          labels := some labels, os := some os, ports := runOptions.ports,
          volumes := some volumes }

/-- Modelled from the spec: getDefaultImageName of tasks/TaskHelper.ts is not
under src; the spec says the default image tag is derived from the folder
name plus a dev/latest suffix. -/
def getDefaultImageName (nameHint tag : String) : String :=
  nameHint ++ ":" ++ tag

/-- Scaffolded docker-build task definition as produced by
NetCoreTaskHelper.provideDockerBuildTasks (dockerBuild plus netCore fields). -/
structure NetCoreDockerBuildDefinition where
  type : String
  label : String
  dependsOn : List String
  tag : String
  target : Option String
  netCoreAppProject : String
deriving DecidableEq

/-- NetCoreTaskHelper.provideDockerBuildTasks: two scaffolded build tasks, the
debug target tagged with the dev suffix and target stage base, the release
target tagged with the latest suffix; appProject is the inferred project
path made workspace-relative again. -/
def provideDockerBuildTasks (folderName folderPath appProject : String) :
    List NetCoreDockerBuildDefinition :=
  [ { type := "docker-build", label := "docker-build: debug", dependsOn := ["build"],
      tag := getDefaultImageName folderName "dev", target := some "base",
      netCoreAppProject := unresolveFilePath appProject folderPath },
    { type := "docker-build", label := "docker-build: release", dependsOn := ["build"],
      tag := getDefaultImageName folderName "latest", target := none,
      netCoreAppProject := unresolveFilePath appProject folderPath } ]

end NetCoreTaskHelper

/-- Modelled from the spec: the CommandLineBuilder utility
(utils/commandLineBuilder.ts) is not under src; only its fluent use in
DockerBuildTaskProvider.resolveCommandLine is. Following the spec, the
builder accumulates an ordered token sequence and each with-combinator
appends the tokens of one option, or nothing when the option is unset. -/
structure CommandLineBuilder where
  args : List String
deriving DecidableEq

namespace CommandLineBuilder

/-- Modelled from the spec: CommandLineBuilder.create seeds the token list. -/
def create (args : List String) : CommandLineBuilder := ⟨args⟩

/-- Modelled from the spec: withFlagArg appends the bare flag when the value
is true, and nothing otherwise. -/
def withFlagArg (b : CommandLineBuilder) (name : String) (value : Option Bool) :
    CommandLineBuilder :=
  if value.getD false then ⟨b.args ++ [name]⟩ else b

/-- Modelled from the spec: withNamedArg appends the flag followed by its
value when the value is set, and nothing otherwise. -/
def withNamedArg (b : CommandLineBuilder) (name : String) (value : Option String) :
    CommandLineBuilder :=
  match value with
  | some v => ⟨b.args ++ [name, v]⟩
  | none => b

/-- Modelled from the spec: withKeyValueArgs appends, for every entry of a
set mapping, the flag followed by key=value, and nothing when the mapping
is unset. -/
def withKeyValueArgs (b : CommandLineBuilder) (name : String)
    (values : Option (List (String × String))) : CommandLineBuilder :=
  match values with
  | some kvs => ⟨b.args ++ (kvs.map (fun kv => [name, kv.1 ++ "=" ++ kv.2])).flatten⟩
  | none => b

/-- Modelled from the spec: withQuotedArg appends the (shell-quoted) value
when it is set, and nothing otherwise. -/
def withQuotedArg (b : CommandLineBuilder) (value : Option String) : CommandLineBuilder :=
  match value with
  | some v => ⟨b.args ++ [v]⟩
  | none => b

/-- Modelled from the spec: buildShellQuotedStrings returns the accumulated
token sequence. -/
def buildShellQuotedStrings (b : CommandLineBuilder) : List String := b.args

end CommandLineBuilder

/-- Build options record of the docker-build task definitions
(DockerBuildTaskProvider.DockerBuildOptions); absent fields are `none`. -/
structure DockerBuildOptions where
  args : Option (List (String × String))
  context : Option String
  dockerfile : Option String
  labels : Option (List (String × String))
  tag : Option String
  target : Option String
  pull : Option Bool
deriving DecidableEq

/-- DockerBuildTaskProvider.resolveCommandLine: the fluent builder chain in
source order. -/
def resolveCommandLine (options : DockerBuildOptions) : List String :=
  ((((((((CommandLineBuilder.create ["docker", "build", "--rm"]).withFlagArg
    "--pull" options.pull).withNamedArg
    "-f" options.dockerfile).withKeyValueArgs
    "--build-arg" options.args).withKeyValueArgs
    "--label" options.labels).withNamedArg
    "-t" options.tag).withNamedArg
    "--target" options.target).withQuotedArg
    options.context).buildShellQuotedStrings

/-- Tokens contributed by a boolean flag option. -/
def flagPart (name : String) (value : Option Bool) : List String :=
  if value.getD false then [name] else []

/-- Tokens contributed by a named scalar option. -/
def namedPart (name : String) (value : Option String) : List String :=
  match value with
  | some v => [name, v]
  | none => []

/-- Tokens contributed by a key-value mapping option. -/
def keyValuePart (name : String) (values : Option (List (String × String))) : List String :=
  match values with
  | some kvs => (kvs.map (fun kv => [name, kv.1 ++ "=" ++ kv.2])).flatten
  | none => []

/-- Tokens contributed by a positional quoted option. -/
def quotedPart (value : Option String) : List String :=
  match value with
  | some v => [v]
  | none => []

/-- Modelled from the spec: the documented fixed flag order of the build
command line, docker build --rm [--pull] [-f dockerfile] [--build-arg k=v]*
[--label k=v]* [-t tag] [--target stage] context, with unset options
omitted entirely. -/
def specBuildCommandLine (o : DockerBuildOptions) : List String :=
  ["docker", "build", "--rm"] ++ flagPart "--pull" o.pull ++ namedPart "-f" o.dockerfile
    ++ keyValuePart "--build-arg" o.args ++ keyValuePart "--label" o.labels
    ++ namedPart "-t" o.tag ++ namedPart "--target" o.target ++ quotedPart o.context

theorem withFlagArg_args (b : CommandLineBuilder) (name : String) (value : Option Bool) :
    (b.withFlagArg name value).args = b.args ++ flagPart name value := by
  cases value with
  | none => simp [CommandLineBuilder.withFlagArg, flagPart]
  | some v => cases v <;> simp [CommandLineBuilder.withFlagArg, flagPart]

theorem withNamedArg_args (b : CommandLineBuilder) (name : String) (value : Option String) :
    (b.withNamedArg name value).args = b.args ++ namedPart name value := by
  cases value <;> simp [CommandLineBuilder.withNamedArg, namedPart]

theorem withKeyValueArgs_args (b : CommandLineBuilder) (name : String)
    (values : Option (List (String × String))) :
    (b.withKeyValueArgs name values).args = b.args ++ keyValuePart name values := by
  cases values <;> simp [CommandLineBuilder.withKeyValueArgs, keyValuePart]

theorem withQuotedArg_args (b : CommandLineBuilder) (value : Option String) :
    (b.withQuotedArg value).args = b.args ++ quotedPart value := by
  cases value <;> simp [CommandLineBuilder.withQuotedArg, quotedPart]

/-- Docker-specific options of a resolved debug configuration
(DebugHelper.ResolvedDebugConfigurationOptions). -/
structure ResolvedDebugConfigurationOptions where
  containerNameToKill : Option String
  removeContainerAfterDebug : Option Bool
deriving DecidableEq

/-- Resolved debug configuration, reduced to the dockerOptions consulted by
the cleanup logic; a terminated session carries such a configuration. -/
structure ResolvedDebugConfiguration where
  dockerOptions : Option ResolvedDebugConfigurationOptions
deriving DecidableEq

/-- State of the one-shot session-termination listener registered by
DockerDebugConfigurationProvider.registerRemoveContainerAfterDebugging:
the container name it was scoped to, whether it is still registered
(not yet disposed), and how many times it removed the container. -/
structure ListenerState where
  containerNameToKill : Option String
  registered : Bool
  removals : Nat
deriving DecidableEq

/-- DockerDebugConfigurationProvider.registerRemoveContainerAfterDebugging:
a listener is registered only when dockerOptions is present,
removeContainerAfterDebug is undefined or true, and containerNameToKill is
truthy. The immediate best-effort removal of a pre-existing container with
that name (errors swallowed) precedes registration and is not part of the
listener state; removals counts removals performed by the listener. -/
def registerRemoveContainerAfterDebugging (resolvedConfiguration : ResolvedDebugConfiguration) :
    Option ListenerState :=
  match resolvedConfiguration.dockerOptions with
  | some o =>
    if (match o.removeContainerAfterDebug with | none => true | some b => b)
        && jsTruthy o.containerNameToKill then
      some ⟨o.containerNameToKill, true, 0⟩
    else none
  | none => none

/-- Body of the onDidTerminateDebugSession listener: when the terminated
session's configuration carries dockerOptions whose containerNameToKill
equals the registered one, the container is removed and the listener
disposes itself; otherwise the listener returns without disposing. The
removal is modelled as succeeding (on a removal error the source swallows
the error and disposes). A disposed listener no longer reacts. -/
def onDidTerminateDebugSession (s : ListenerState)
    (session : Option ResolvedDebugConfiguration) : ListenerState :=
  if s.registered then
    match session with
    | some sessionConfiguration =>
      match sessionConfiguration.dockerOptions with
      | some o =>
        if o.containerNameToKill == s.containerNameToKill then
          ⟨s.containerNameToKill, false, s.removals + 1⟩
        else s
      | none => s
    | none => s
  else s

theorem onDidTerminateDebugSession_not_registered (s : ListenerState)
    (h : s.registered = false) (session : Option ResolvedDebugConfiguration) :
    onDidTerminateDebugSession s session = s := by
  simp [onDidTerminateDebugSession, h]

theorem foldl_onDidTerminateDebugSession_not_registered
    (evs : List (Option ResolvedDebugConfiguration)) (s : ListenerState)
    (h : s.registered = false) :
    evs.foldl onDidTerminateDebugSession s = s := by
  induction evs with
  | nil => rfl
  | cons e t ih =>
    rw [List.foldl_cons, onDidTerminateDebugSession_not_registered s h e, ih]

namespace CoreClr

/-- Build options of the coreclr docker debug configuration
(DockerDebugBuildOptions). -/
structure DockerDebugBuildOptions where
  args : Option (List (String × String))
  context : Option String
  dockerfile : Option String
  labels : Option (List (String × String))
  tag : Option String
  target : Option String
deriving DecidableEq

/-- Coreclr docker debug configuration, reduced to the fields consulted by
the artifact-location logic (dockerRun and browser options are not). -/
structure DockerDebugConfiguration where
  appFolder : Option String
  appOutput : Option String
  appProject : Option String
  dockerBuild : Option DockerDebugBuildOptions
  configureAspNetCoreSsl : Option Bool
deriving DecidableEq

/-- File-system state consulted through the FileSystemProvider: which
directories and files exist, and the directory listings. -/
structure FileSystem where
  dirs : List String
  files : List String
  dirEntries : List (String × List String)
deriving DecidableEq

/-- FileSystemProvider.dirExists. -/
def dirExists (fs : FileSystem) (p : String) : Bool := fs.dirs.contains p

/-- FileSystemProvider.fileExists. -/
def fileExists (fs : FileSystem) (p : String) : Bool := fs.files.contains p

/-- FileSystemProvider.readDir. -/
def readDir (fs : FileSystem) (p : String) : List String := (fs.dirEntries.lookup p).getD []

/-- The appFolder determined by inferAppFolder before existence checking: a
truthy configured appFolder, else the directory of a truthy configured
appProject, else the workspace folder path. -/
def appFolderCandidate (folderPath : String) (cfg : DockerDebugConfiguration) : String :=
  if jsTruthy cfg.appFolder then cfg.appFolder.getD ""
  else if jsTruthy cfg.appProject then pathDirname (cfg.appProject.getD "")
  else folderPath

/-- DockerNetCoreDebugConfigurationProvider.inferAppFolder: resolves the
candidate and throws when the resolved folder does not exist, naming the
folder and the properties to fix. -/
def inferAppFolder (folderPath : String) (cfg : DockerDebugConfiguration) (fs : FileSystem) :
    Except String (String × String) :=
  let appFolder := appFolderCandidate folderPath cfg
  let resolvedAppFolder := resolveFilePath appFolder folderPath
  if dirExists fs resolvedAppFolder then .ok (appFolder, resolvedAppFolder)
  else .error ("The application folder \x27" ++ resolvedAppFolder ++ "\x27 does not exist. Ensure that the \x27appFolder\x27 or \x27appProject\x27 property is set correctly in the Docker debug configuration.")

/-- The appProject determined by inferAppProject before existence checking:
a truthy configured appProject, else the first directory entry of the
resolved app folder with a .csproj or .fsproj extension, else nothing. -/
def appProjectCandidate (cfg : DockerDebugConfiguration) (fs : FileSystem)
    (resolvedAppFolder : String) : Option String :=
  if jsTruthy cfg.appProject then cfg.appProject
  else
    match (readDir fs resolvedAppFolder).find?
        (fun file => pathExtname file == ".csproj" || pathExtname file == ".fsproj") with
    | some projectFile => some (pathJoin resolvedAppFolder projectFile)
    | none => none

/-- Error message thrown when no project file can be inferred at all. -/
def unableToInferAppProjectMessage : String :=
  "Unable to infer the application project file. Set either the \x27appFolder\x27 or \x27appProject\x27 property in the Docker debug configuration."

/-- DockerNetCoreDebugConfigurationProvider.inferAppProject: when no candidate
exists the fixed unable-to-infer error is thrown; otherwise the candidate
is resolved and a missing file throws an error naming the resolved path
and the properties to fix. -/
def inferAppProject (folderPath : String) (cfg : DockerDebugConfiguration) (fs : FileSystem)
    (resolvedAppFolder : String) : Except String (String × String) :=
  match appProjectCandidate cfg fs resolvedAppFolder with
  | none => .error unableToInferAppProjectMessage
  | some appProject =>
    let resolvedAppProject := resolveFilePath appProject folderPath
    if fileExists fs resolvedAppProject then .ok (appProject, resolvedAppProject)
    else .error ("The application project file \x27" ++ resolvedAppProject ++ "\x27 does not exist. Ensure that the \x27appFolder\x27 or \x27appProject\x27 property is set correctly in the Docker debug configuration.")

/-- The context determined by inferContext before existence checking: a truthy
configured dockerBuild.context, else the resolved app folder when it equals
the workspace folder (no solution folder), else its parent. -/
def contextCandidate (folderPath resolvedAppFolder : String)
    (cfg : DockerDebugConfiguration) : String :=
  let fallback :=
    if pathNormalize resolvedAppFolder == pathNormalize folderPath then resolvedAppFolder
    else pathDirname resolvedAppFolder
  match cfg.dockerBuild with
  | some db => if jsTruthy db.context then db.context.getD "" else fallback
  | none => fallback

/-- DockerNetCoreDebugConfigurationProvider.inferContext: resolves the
candidate and throws when the resolved folder does not exist, naming the
folder and the property to fix. -/
def inferContext (folderPath resolvedAppFolder : String) (cfg : DockerDebugConfiguration)
    (fs : FileSystem) : Except String String :=
  let resolvedContext := resolveFilePath (contextCandidate folderPath resolvedAppFolder cfg) folderPath
  if dirExists fs resolvedContext then .ok resolvedContext
  else .error ("The context folder \x27" ++ resolvedContext ++ "\x27 does not exist. Ensure that the \x27context\x27 property is set correctly in the Docker debug configuration.")

/-- The dockerfile determined by inferDockerfile before existence checking: a
truthy configured dockerBuild.dockerfile, else Dockerfile in the resolved
app folder. -/
def dockerfileCandidate (resolvedAppFolder : String) (cfg : DockerDebugConfiguration) : String :=
  match cfg.dockerBuild with
  | some db => if jsTruthy db.dockerfile then db.dockerfile.getD ""
               else pathJoin resolvedAppFolder "Dockerfile"
  | none => pathJoin resolvedAppFolder "Dockerfile"

/-- DockerNetCoreDebugConfigurationProvider.inferDockerfile: resolves the
candidate and throws when the file does not exist, naming the file and
the property to fix. -/
def inferDockerfile (folderPath resolvedAppFolder : String) (cfg : DockerDebugConfiguration)
    (fs : FileSystem) : Except String String :=
  let dockerfile := resolveFilePath (dockerfileCandidate resolvedAppFolder cfg) folderPath
  if fileExists fs dockerfile then .ok dockerfile
  else .error ("The Dockerfile \x27" ++ dockerfile ++ "\x27 does not exist. Ensure that the \x27dockerfile\x27 property is set correctly in the Docker debug configuration.")

/-- The artifact-location pipeline of resolveDockerDebugConfiguration and
inferBuildOptions in source order: app folder, then project file, then
build context, then Dockerfile; the first thrown error aborts resolution,
so no partially-resolved configuration is produced. -/
def resolveArtifacts (folderPath : String) (cfg : DockerDebugConfiguration) (fs : FileSystem) :
    Except String (String × String × String × String) := do
  let (_, resolvedAppFolder) ← inferAppFolder folderPath cfg fs
  let (_, resolvedAppProject) ← inferAppProject folderPath cfg fs resolvedAppFolder
  let resolvedContext ← inferContext folderPath resolvedAppFolder cfg fs
  let dockerfile ← inferDockerfile folderPath resolvedAppFolder cfg fs
  return (resolvedAppFolder, resolvedAppProject, resolvedContext, dockerfile)

end CoreClr

namespace DebugHelperMod

/-- Persisted launch configuration, keyed by its name; the remaining
properties are carried opaquely as ordered key-value pairs. -/
structure DebugConfiguration where
  name : String
  body : List (String × String)
deriving DecidableEq

/-- DebugHelper.addDebugConfiguration: the persisted configuration list (an
absent setting reads as the empty list) is left unchanged with result
false when some existing configuration has the same name; otherwise the
configuration is appended (and persisted) with result true. -/
def addDebugConfiguration (workspaceLaunchConfigurations : Option (List DebugConfiguration))
    (debugConfiguration : DebugConfiguration) : List DebugConfiguration × Bool :=
  let allConfigs := workspaceLaunchConfigurations.getD []
  if allConfigs.any (fun c => c.name == debugConfiguration.name) then (allConfigs, false)
  else (allConfigs ++ [debugConfiguration], true)

end DebugHelperMod

/-- C1: for every volume list and every volume whose containerPath equals the
containerPath of some volume already in the list, addVolumeWithoutConflicts
leaves the list unchanged and returns false (first-write-wins), and the
same holds for ports keyed by containerPort via addPortWithoutConflicts. -/
theorem addWithoutConflicts_first_write_wins :
    (∀ (volumes : List DockerContainerVolume) (volume : DockerContainerVolume),
      (∃ v ∈ volumes, v.containerPath = volume.containerPath) →
      addVolumeWithoutConflicts volumes volume = (volumes, false)) ∧
    (∀ (ports : List DockerContainerPort) (port : DockerContainerPort),
      (∃ p ∈ ports, p.containerPort = port.containerPort) →
      addPortWithoutConflicts ports port = (ports, false)) := by
  constructor
  · rintro volumes volume ⟨v, hv, he⟩
    have ha : volumes.any (fun w => w.containerPath == volume.containerPath) = true :=
      List.any_eq_true.mpr ⟨v, hv, beq_iff_eq.mpr he⟩
    simp [addVolumeWithoutConflicts, ha]
  · rintro ports port ⟨p, hp, he⟩
    have ha : ports.any (fun q => q.containerPort == port.containerPort) = true :=
      List.any_eq_true.mpr ⟨p, hp, beq_iff_eq.mpr he⟩
    simp [addPortWithoutConflicts, ha]

/-- Witness for C1: adding a volume for the already-mapped container path /app
and a port for the already-mapped container port 5678 each leaves the list
unchanged and returns false. -/
theorem addWithoutConflicts_first_write_wins_witness :
    addVolumeWithoutConflicts [⟨"/ws/app", "/app", "rw"⟩] ⟨"/other", "/app", "ro"⟩
      = ([⟨"/ws/app", "/app", "rw"⟩], false) ∧
    addPortWithoutConflicts [⟨8080, 5678⟩] ⟨9999, 5678⟩ = ([⟨8080, 5678⟩], false) :=
  ⟨addWithoutConflicts_first_write_wins.1 _ _ ⟨⟨"/ws/app", "/app", "rw"⟩, by simp, rfl⟩,
    addWithoutConflicts_first_write_wins.2 _ _ ⟨⟨8080, 5678⟩, by simp, rfl⟩⟩

/-- C2: after registerRemoveContainerAfterDebugging registers cleanup for a
container name, termination of a debug session whose configuration names a
different container neither removes the container nor deregisters the
listener; termination of a session whose configuration names the
registered container removes it exactly once (also across any further
terminations) and deregisters the listener. -/
theorem registerRemoveContainerAfterDebugging_cleanup
    (resolvedConfiguration otherSession matchingSession : ResolvedDebugConfiguration)
    (s0 : ListenerState)
    (hreg : registerRemoveContainerAfterDebugging resolvedConfiguration = some s0)
    (hother : ∀ o, otherSession.dockerOptions = some o →
      o.containerNameToKill ≠ s0.containerNameToKill)
    (hmatching : ∃ o, matchingSession.dockerOptions = some o ∧
      o.containerNameToKill = s0.containerNameToKill) :
    onDidTerminateDebugSession s0 (some otherSession) = s0 ∧
    (onDidTerminateDebugSession s0 (some otherSession)).registered = true ∧
    (onDidTerminateDebugSession s0 (some otherSession)).removals = s0.removals ∧
    onDidTerminateDebugSession s0 (some matchingSession)
      = ⟨s0.containerNameToKill, false, 1⟩ ∧
    ∀ evs : List (Option ResolvedDebugConfiguration),
      (evs.foldl onDidTerminateDebugSession
        (onDidTerminateDebugSession s0 (some matchingSession))).removals = 1 := by
  obtain ⟨o0, hdo⟩ : ∃ o, resolvedConfiguration.dockerOptions = some o := by
    cases h : resolvedConfiguration.dockerOptions with
    | none => simp [registerRemoveContainerAfterDebugging, h] at hreg
    | some o => exact ⟨o, rfl⟩
  simp only [registerRemoveContainerAfterDebugging, hdo] at hreg
  split at hreg
  case isFalse => exact absurd hreg (by simp)
  case isTrue hcond =>
  obtain rfl : (⟨o0.containerNameToKill, true, 0⟩ : ListenerState) = s0 := Option.some.inj hreg
  have hunchanged : onDidTerminateDebugSession ⟨o0.containerNameToKill, true, 0⟩
      (some otherSession) = ⟨o0.containerNameToKill, true, 0⟩ := by
    cases h2 : otherSession.dockerOptions with
    | none => simp [onDidTerminateDebugSession, h2]
    | some o =>
      have hne := hother o h2
      simp only [ListenerState.containerNameToKill] at hne
      simp [onDidTerminateDebugSession, h2, beq_eq_false_iff_ne.mpr hne]
  obtain ⟨om, hm1, hm2⟩ := hmatching
  simp only [ListenerState.containerNameToKill] at hm2
  have hfired : onDidTerminateDebugSession ⟨o0.containerNameToKill, true, 0⟩
      (some matchingSession) = ⟨o0.containerNameToKill, false, 1⟩ := by
    simp [onDidTerminateDebugSession, hm1, hm2]
  refine ⟨hunchanged, by rw [hunchanged], by rw [hunchanged], hfired, fun evs => ?_⟩
  rw [hfired, foldl_onDidTerminateDebugSession_not_registered evs _ rfl]

/-- Witness for C2: the listener registered for container name c1 ignores the
termination of a session for c2 and fires exactly once for a session
naming c1. -/
theorem registerRemoveContainerAfterDebugging_cleanup_witness :
    onDidTerminateDebugSession ⟨some "c1", true, 0⟩ (some ⟨some ⟨some "c2", none⟩⟩)
      = ⟨some "c1", true, 0⟩ ∧
    onDidTerminateDebugSession ⟨some "c1", true, 0⟩ (some ⟨some ⟨some "c1", none⟩⟩)
      = ⟨some "c1", false, 1⟩ := by
  have h := registerRemoveContainerAfterDebugging_cleanup
    ⟨some ⟨some "c1", none⟩⟩ ⟨some ⟨some "c2", none⟩⟩ ⟨some ⟨some "c1", none⟩⟩
    ⟨some "c1", true, 0⟩ rfl
    (by intro o ho; cases Option.some.inj ho; decide)
    ⟨⟨some "c1", none⟩, rfl, rfl⟩
  exact ⟨h.1, h.2.2.2.1⟩

/-- C3: for every build option record, resolveCommandLine emits the token
sequence of the fixed grammar docker build --rm [--pull] [-f dockerfile]
[--build-arg k=v]* [--label k=v]* [-t tag] [--target stage] context, and
each optional part contributes tokens exactly when the corresponding field
is set (an unset field contributes no token at all, and the pull flag
appears exactly when pull is set to true). -/
theorem resolveCommandLine_matches_grammar (o : DockerBuildOptions) :
    resolveCommandLine o = specBuildCommandLine o ∧
    (resolveCommandLine o).take 3 = ["docker", "build", "--rm"] ∧
    (flagPart "--pull" o.pull = ["--pull"] ↔ o.pull = some true) ∧
    (namedPart "-f" o.dockerfile = [] ↔ o.dockerfile = none) ∧
    (namedPart "-t" o.tag = [] ↔ o.tag = none) ∧
    (namedPart "--target" o.target = [] ↔ o.target = none) ∧
    (quotedPart o.context = [] ↔ o.context = none) ∧
    (keyValuePart "--build-arg" o.args = [] ↔ (o.args = none ∨ o.args = some [])) ∧
    (keyValuePart "--label" o.labels = [] ↔ (o.labels = none ∨ o.labels = some [])) := by
  have he : resolveCommandLine o = specBuildCommandLine o := by
    simp [resolveCommandLine, specBuildCommandLine, CommandLineBuilder.buildShellQuotedStrings,
      withFlagArg_args, withNamedArg_args, withKeyValueArgs_args, withQuotedArg_args,
      CommandLineBuilder.create, List.append_assoc]
  refine ⟨he, ?_, ?_, ?_, ?_, ?_, ?_, ?_, ?_⟩
  · rw [he]; simp [specBuildCommandLine]
  · rcases o.pull with _ | b
    · simp [flagPart]
    · cases b <;> simp [flagPart]
  · rcases o.dockerfile with _ | d <;> simp [namedPart]
  · rcases o.tag with _ | t <;> simp [namedPart]
  · rcases o.target with _ | t <;> simp [namedPart]
  · rcases o.context with _ | c <;> simp [quotedPart]
  · rcases o.args with _ | kvs
    · simp [keyValuePart]
    · cases kvs <;> simp [keyValuePart]
  · rcases o.labels with _ | kvs
    · simp [keyValuePart]
    · cases kvs <;> simp [keyValuePart]

/-- C4: the claim that resolving run options twice is idempotent fails on the
code. Evaluating the embedded NetCoreTaskHelper.resolveDockerRunOptions on
a Linux workspace from the all-defaults run options yields entrypoint tail
and command -f /dev/null; resolving that output again (identical helper
options, unchanged workspace) yields entrypoint ping and command
-t localhost, because the source's entrypoint and command assignments
parse as (value || os === Windows) ? windowsDefault : linuxDefault, so a
truthy already-set value flips the conditional to the Windows defaults. -/
theorem netCore_resolveDockerRunOptions_second_resolve_differs :
    Except.bind
      (NetCoreTaskHelper.resolveDockerRunOptions
        ⟨"/ws", "/ws/app/myapp.csproj", none, .missing, "", "/vsdbg", "/home/user",
          .linux, none, "/sec/user", "/sec/cert", "C:\\secw", "/sec/cl", "C:\\certw",
          "/sec/certl"⟩
        (some ⟨some "/ws/app/myapp.csproj", some false⟩)
        ⟨none, none, none, none, none, none, none, none, none⟩)
      (fun r1 =>
        Except.map (fun r2 => (r1.entrypoint, r1.command, r2.entrypoint, r2.command))
          (NetCoreTaskHelper.resolveDockerRunOptions
            ⟨"/ws", "/ws/app/myapp.csproj", none, .missing, "", "/vsdbg", "/home/user",
              .linux, none, "/sec/user", "/sec/cert", "C:\\secw", "/sec/cl", "C:\\certw",
              "/sec/certl"⟩
            (some ⟨some "/ws/app/myapp.csproj", some false⟩) r1))
    = .ok (some "tail", some "-f /dev/null", some "ping", some "-t localhost") := by
  rfl

/-- C5: the claim that a user-set entrypoint (and command) is left unchanged
fails on the code. With entrypoint /bin/sh and command echo hi set by the
user and target OS Linux, the embedded
NetCoreTaskHelper.resolveDockerRunOptions overwrites both with the Windows
defaults ping and -t localhost: the source's assignments parse as
(value || os === Windows) ? windowsDefault : linuxDefault, so any truthy
user value selects the Windows default instead of being preserved. -/
theorem netCore_resolveDockerRunOptions_overwrites_user_entrypoint :
    Except.map (fun r => (r.entrypoint, r.command))
      (NetCoreTaskHelper.resolveDockerRunOptions
        ⟨"/ws", "/ws/app/myapp.csproj", none, .missing, "", "/vsdbg", "/home/user",
          .linux, none, "/sec/user", "/sec/cert", "C:\\secw", "/sec/cl", "C:\\certw",
          "/sec/certl"⟩
        (some ⟨some "/ws/app/myapp.csproj", some false⟩)
        ⟨some "echo hi", none, some "/bin/sh", none, none, none, some PlatformOS.Linux,
          none, none⟩)
    = .ok (some "ping", some "-t localhost") := by
  rfl

/-- C6: for every project file whose contents contain the token UserSecretsId
in any character case, user-secrets configuration is inferred as required
(inferUserSecrets returns true) and the combined user-secrets decision is
true for every SSL inference outcome, in particular when SSL inference
returns false; and whenever SSL is inferred true, the user-secrets
decision is also true. -/
theorem netCore_inferUserSecrets_case_insensitive :
    (∀ contents : String,
      (∃ l m r : List Char, contents.data = l ++ m ++ r ∧
        m.map Char.toLower = "UserSecretsId".data.map Char.toLower) →
      NetCoreTaskHelper.inferUserSecrets contents = true ∧
      ∀ ssl : Bool, NetCoreTaskHelper.resolveUserSecrets ssl contents = true) ∧
    (∀ contents : String, NetCoreTaskHelper.resolveUserSecrets true contents = true) := by
  constructor
  · rintro contents ⟨l, m, r, hdecomp, hlower⟩
    have hsub : NetCoreTaskHelper.inferUserSecrets contents = true := by
      unfold NetCoreTaskHelper.inferUserSecrets
      refine (containsSub_eq_true_iff _ _).mpr
        ⟨l.map Char.toLower, r.map Char.toLower, ?_⟩
      rw [hdecomp]
      simp [hlower]
    refine ⟨hsub, fun ssl => ?_⟩
    unfold NetCoreTaskHelper.resolveUserSecrets
    split <;> simp [hsub]
  · intro contents
    rfl

/-- Witness for C6: a project file carrying the token in upper case infers
user secrets even with SSL inferred false. -/
theorem netCore_inferUserSecrets_case_insensitive_witness :
    NetCoreTaskHelper.inferUserSecrets
      "<PropertyGroup><USERSECRETSID>X</USERSECRETSID></PropertyGroup>" = true ∧
    NetCoreTaskHelper.resolveUserSecrets false
      "<PropertyGroup><USERSECRETSID>X</USERSECRETSID></PropertyGroup>" = true := by
  have h := netCore_inferUserSecrets_case_insensitive.1
    "<PropertyGroup><USERSECRETSID>X</USERSECRETSID></PropertyGroup>"
    ⟨"<PropertyGroup><".data, "USERSECRETSID".data,
      ">X</USERSECRETSID></PropertyGroup>".data, by rfl, by decide⟩
  exact ⟨h.1, h.2 false⟩

/-- C7: scaffolding build tasks for the workspace folder named myapp produces
the debug target tagged myapp:dev and the release target tagged
myapp:latest, and for every folder name the dev-suffixed and
latest-suffixed default tags differ, so the two targets never share a tag. -/
theorem netCore_provideDockerBuildTasks_default_tags :
    (∀ folderPath appProject : String,
      (NetCoreTaskHelper.provideDockerBuildTasks "myapp" folderPath appProject).map
        (fun t => t.tag) = ["myapp:dev", "myapp:latest"]) ∧
    ∀ name : String,
      NetCoreTaskHelper.getDefaultImageName name "dev"
        ≠ NetCoreTaskHelper.getDefaultImageName name "latest" := by
  constructor
  · intro folderPath appProject
    rfl
  · intro name h
    unfold NetCoreTaskHelper.getDefaultImageName at h
    rw [String.append_assoc, String.append_assoc] at h
    have h2 := congrArg String.length h
    simp only [String.length_append] at h2
    have h3 : String.length ":" = 1 := rfl
    have h4 : String.length "dev" = 3 := rfl
    have h5 : String.length "latest" = 6 := rfl
    rw [h3, h4, h5] at h2
    omega

/-- C8: secure-transport inference never propagates an error: when reading or
parsing the launch-settings file fails (the try-block throws) inferSsl
returns false instead, and whenever no project profile with an https
applicationUrl exists inferSsl returns false, so the enclosing resolution
proceeds with the safe default. -/
theorem netCore_inferSsl_degrades_to_false :
    (∀ r : LaunchSettingsRead, NetCoreTaskHelper.inferSslBody r = .error () →
      NetCoreTaskHelper.inferSsl r = false) ∧
    (∀ r : LaunchSettingsRead, ¬ NetCoreTaskHelper.hasHttpsProjectProfile r →
      NetCoreTaskHelper.inferSsl r = false) := by
  constructor
  · intro r h
    unfold NetCoreTaskHelper.inferSsl
    rw [h]
  · intro r hn
    cases r with
    | missing => rfl
    | readError => rfl
    | parsed s =>
      unfold NetCoreTaskHelper.inferSsl NetCoreTaskHelper.inferSslBody
      cases hp : s.profiles with
      | none => simp [hp]
      | some profiles =>
        cases hf : profiles.find? (fun p => p.commandName == some "Project") with
        | none => simp [hp, hf]
        | some q =>
          cases hq : q.applicationUrl with
          | none => simp [hp, hf, hq]
          | some url =>
            cases hb : httpsRegexTest url with
            | false => simp [hp, hf, hq, hb]
            | true =>
              exact absurd
                ⟨profiles, hp, q, List.mem_of_find?_eq_some hf,
                  by simpa using List.find?_some hf, url, hq, hb⟩ hn

/-- Witness for C8: a read failure and a launch-settings file with only an
http project profile both yield false. -/
theorem netCore_inferSsl_degrades_to_false_witness :
    NetCoreTaskHelper.inferSsl .readError = false ∧
    NetCoreTaskHelper.inferSsl
      (.parsed ⟨some [⟨some "Project", some "http://localhost:5000"⟩]⟩) = false := by
  refine ⟨netCore_inferSsl_degrades_to_false.1 _ rfl,
    netCore_inferSsl_degrades_to_false.2 _ ?_⟩
  rintro ⟨profiles, hp, p, hmem, hcmd, url, hurl, htest⟩
  obtain rfl := Option.some.inj hp
  simp only [List.mem_singleton] at hmem
  subst hmem
  obtain rfl := Option.some.inj hurl
  exact absurd htest (by decide)

/-- C9 (amended): whenever a required artifact cannot be located, resolution
raises an error naming the configuration property to fix, and — except for
the project-file directory scan that finds no candidate at all, whose
fixed message names the artifact and the properties but no path — the
message also contains the missing artifact's resolved path; an error from
any step aborts the pipeline, so no partially-resolved configuration is
returned. -/
theorem coreclr_artifact_errors_name_property_and_path
    (folderPath : String) (cfg : CoreClr.DockerDebugConfiguration) (fs : CoreClr.FileSystem) :
    (∀ m, CoreClr.inferAppFolder folderPath cfg fs = .error m →
      strContainsSub m (resolveFilePath (CoreClr.appFolderCandidate folderPath cfg) folderPath)
        = true ∧
      strContainsSub m "appFolder" = true ∧ strContainsSub m "appProject" = true) ∧
    (∀ raf m, CoreClr.inferAppProject folderPath cfg fs raf = .error m →
      (strContainsSub m "appFolder" = true ∧ strContainsSub m "appProject" = true) ∧
      (m = CoreClr.unableToInferAppProjectMessage ∨
        ∃ p, CoreClr.appProjectCandidate cfg fs raf = some p ∧
          strContainsSub m (resolveFilePath p folderPath) = true)) ∧
    (∀ raf m, CoreClr.inferContext folderPath raf cfg fs = .error m →
      strContainsSub m (resolveFilePath (CoreClr.contextCandidate folderPath raf cfg) folderPath)
        = true ∧
      strContainsSub m "context" = true) ∧
    (∀ raf m, CoreClr.inferDockerfile folderPath raf cfg fs = .error m →
      strContainsSub m (resolveFilePath (CoreClr.dockerfileCandidate raf cfg) folderPath)
        = true ∧
      strContainsSub m "dockerfile" = true) ∧
    (∀ m, CoreClr.inferAppFolder folderPath cfg fs = .error m →
      CoreClr.resolveArtifacts folderPath cfg fs = .error m) := by
  refine ⟨?_, ?_, ?_, ?_, ?_⟩
  · intro m hm
    unfold CoreClr.inferAppFolder at hm
    dsimp only at hm
    split at hm
    · simp at hm
    · obtain rfl := Except.error.inj hm
      exact ⟨strContainsSub_of_decomp _ _ _ _ rfl,
        strContainsSub_append_right _ _ _ (by decide),
        strContainsSub_append_right _ _ _ (by decide)⟩
  · intro raf m hm
    unfold CoreClr.inferAppProject at hm
    rcases hcand : CoreClr.appProjectCandidate cfg fs raf with _ | ap
    · rw [hcand] at hm
      obtain rfl := Except.error.inj hm
      exact ⟨⟨by decide, by decide⟩, Or.inl rfl⟩
    · rw [hcand] at hm
      simp only at hm
      split at hm
      · simp at hm
      · obtain rfl := Except.error.inj hm
        refine ⟨⟨strContainsSub_append_right _ _ _ (by decide),
          strContainsSub_append_right _ _ _ (by decide)⟩,
          Or.inr ⟨ap, rfl, strContainsSub_of_decomp _ _ _ _ rfl⟩⟩
  · intro raf m hm
    unfold CoreClr.inferContext at hm
    dsimp only at hm
    split at hm
    · simp at hm
    · obtain rfl := Except.error.inj hm
      exact ⟨strContainsSub_of_decomp _ _ _ _ rfl,
        strContainsSub_append_right _ _ _ (by decide)⟩
  · intro raf m hm
    unfold CoreClr.inferDockerfile at hm
    dsimp only at hm
    split at hm
    · simp at hm
    · obtain rfl := Except.error.inj hm
      exact ⟨strContainsSub_of_decomp _ _ _ _ rfl,
        strContainsSub_append_right _ _ _ (by decide)⟩
  · intro m hm
    unfold CoreClr.resolveArtifacts
    rw [hm]
    rfl

/-- Counterexample for C9 as stated: in a workspace at /ws whose folder exists
but contains no .csproj or .fsproj file, resolution fails with the fixed
unable-to-infer message, and that message contains no path at all (not the
workspace path, not even a path separator), so the error does not name the
missing artifact's path. -/
theorem coreclr_scan_failure_error_names_no_path :
    CoreClr.resolveArtifacts "/ws" ⟨none, none, none, none, none⟩
      ⟨["/ws"], [], [("/ws", ["README.md"])]⟩
      = .error CoreClr.unableToInferAppProjectMessage ∧
    strContainsSub CoreClr.unableToInferAppProjectMessage "/ws" = false ∧
    strContainsSub CoreClr.unableToInferAppProjectMessage "/" = false := by
  refine ⟨rfl, by decide, by decide⟩

/-- Witness for C9: a missing Dockerfile at /ws/Dockerfile yields an error
whose message contains the resolved Dockerfile path and the dockerfile
property name. -/
theorem coreclr_artifact_errors_witness :
    strContainsSub
      "The Dockerfile \x27/ws/Dockerfile\x27 does not exist. Ensure that the \x27dockerfile\x27 property is set correctly in the Docker debug configuration."
      (resolveFilePath (CoreClr.dockerfileCandidate "/ws" ⟨none, none, none, none, none⟩) "/ws")
      = true ∧
    strContainsSub
      "The Dockerfile \x27/ws/Dockerfile\x27 does not exist. Ensure that the \x27dockerfile\x27 property is set correctly in the Docker debug configuration."
      "dockerfile" = true := by
  exact (coreclr_artifact_errors_name_property_and_path "/ws"
    ⟨none, none, none, none, none⟩ ⟨["/ws"], [], []⟩).2.2.2.1 "/ws" _ rfl

/-- C10: for every persisted launch-configuration list and every debug
configuration whose name equals the name of some configuration already in
the list, addDebugConfiguration returns false and leaves the list
unchanged; otherwise it appends exactly that configuration and returns
true. -/
theorem addDebugConfiguration_dedupes_by_name
    (configs : List DebugHelperMod.DebugConfiguration)
    (cfg : DebugHelperMod.DebugConfiguration) :
    ((∃ c ∈ configs, c.name = cfg.name) →
      DebugHelperMod.addDebugConfiguration (some configs) cfg = (configs, false)) ∧
    ((¬ ∃ c ∈ configs, c.name = cfg.name) →
      DebugHelperMod.addDebugConfiguration (some configs) cfg = (configs ++ [cfg], true)) := by
  constructor
  · rintro ⟨c, hc, he⟩
    have ha : configs.any (fun d => d.name == cfg.name) = true :=
      List.any_eq_true.mpr ⟨c, hc, beq_iff_eq.mpr he⟩
    simp [DebugHelperMod.addDebugConfiguration, ha]
  · intro hn
    have ha : configs.any (fun d => d.name == cfg.name) = false := by
      rw [← Bool.not_eq_true]
      intro ha
      obtain ⟨c, hc, he⟩ := List.any_eq_true.mp ha
      exact hn ⟨c, hc, beq_iff_eq.mp he⟩
    simp [DebugHelperMod.addDebugConfiguration, ha]

/-- Witness for C10: adding a configuration named debug to a list already
holding one named debug returns false and keeps the list; adding one named
release appends it and returns true. -/
theorem addDebugConfiguration_dedupes_by_name_witness :
    DebugHelperMod.addDebugConfiguration (some [⟨"debug", []⟩]) ⟨"debug", [("k", "v")]⟩
      = ([⟨"debug", []⟩], false) ∧
    DebugHelperMod.addDebugConfiguration (some [⟨"debug", []⟩]) ⟨"release", []⟩
      = ([⟨"debug", []⟩, ⟨"release", []⟩], true) := by
  exact ⟨(addDebugConfiguration_dedupes_by_name _ _).1 ⟨⟨"debug", []⟩, by simp, rfl⟩,
    (addDebugConfiguration_dedupes_by_name _ _).2 (by rintro ⟨c, hc, he⟩; simp at hc; subst hc; simp at he)⟩
